import Mathlib

/-!
Verification of the MMS/IEC-61850 client protocol stack (TPKT, COTP,
ASN.1/BER codec, reports client) against its natural-language
specification.  Byte strings are modelled as `List Nat` (each entry a
byte value), sockets as the finite list of bytes the peer sends before
closing the connection, and Python exceptions as explicit error results.
-/

namespace Po

/-! ## TPKT framer (tpkt.py) -/

/-- Result of `recv_tpkt`: `eof` models the Python `None` return (peer
closed), `err` models a raised `TPKTError`, `ok payload rest` returns the
TPKT payload together with the not-yet-consumed bytes of the stream. -/
inductive TpktRecv where
  | eof : TpktRecv
  | err (msg : String) : TpktRecv
  | ok (payload : List Nat) (rest : List Nat) : TpktRecv
deriving DecidableEq, Repr

/-- `_recv_exact(sock, size)`: reads exactly `size` bytes, or returns
`None` (here `none`) if the connection closes first.  The stream is the
full byte sequence the peer delivers before EOF, so a short read happens
exactly when fewer than `size` bytes remain. -/
def recvExact (stream : List Nat) (size : Nat) : Option (List Nat × List Nat) :=
  if size ≤ stream.length then some (stream.take size, stream.drop size) else none

/-- `send_tpkt(sock, payload)`: the bytes put on the wire, or a
`TPKTError` when `4 + len(payload) > 0xFFFF`.  The header is
`struct.pack("!BBH", 3, 0, length)`. -/
def sendTpkt (payload : List Nat) : Except String (List Nat) :=
  let length := 4 + payload.length
  if 0xFFFF < length then .error "TPKT trop long"
  else .ok ([0x03, 0x00, length / 256, length % 256] ++ payload)

/-- `recv_tpkt(sock)`: reads a 4-byte header, validates version, reserved
octet and length, then reads `length - 4` payload bytes.  Timeout
handling is not modelled (the timeout only re-arms the socket). -/
def recvTpkt (stream : List Nat) : TpktRecv :=
  match recvExact stream 4 with
  | none => .eof
  | some (header, rest) =>
    let ver := header.getD 0 0
    let reserved := header.getD 1 0
    let length := header.getD 2 0 * 256 + header.getD 3 0
    if ver ≠ 0x03 then .err "Version TPKT inattendue"
    else if reserved ≠ 0x00 then .err "Octet reserve TPKT inattendu"
    else if length < 4 then .err "Longueur TPKT invalide"
    else
      let toRead := length - 4
      if toRead = 0 then .ok [] rest
      else
        match recvExact rest toRead with
        | none => .eof
        | some (payload, rest2) =>
          if payload.length ≠ toRead then .err "Payload TPKT tronque"
          else .ok payload rest2

/-- The 16-bit length field a `recv_tpkt` caller sees in a 4-byte header
read from the stream. -/
def declaredLen (stream : List Nat) : Nat :=
  stream.getD 2 0 * 256 + stream.getD 3 0

/-! ## COTP class 0 (cotp.py) -/

/-- `_build_cr_tpdu`: the Connection Request TPDU; `ValueError`s for
out-of-range parameters are modelled as `Except.error`. -/
def buildCrTpdu (srcRef dstRef tpduSize calledTsap callingTsap : Nat) :
    Except String (List Nat) :=
  if ¬ (srcRef ≤ 0xFFFF ∧ dstRef ≤ 0xFFFF) then
    .error "src_ref/dst_ref doivent tenir sur 2 octets"
  else if ¬ (tpduSize ≤ 0xFF) then
    .error "tpdu_size doit tenir sur 1 octet"
  else if ¬ (calledTsap ≤ 0xFFFF ∧ callingTsap ≤ 0xFFFF) then
    .error "called_tsap/calling_tsap doivent tenir sur 2 octets"
  else
    .ok [0x11, 0xE0,
         dstRef / 256 % 256, dstRef % 256,
         srcRef / 256 % 256, srcRef % 256,
         0x00,
         0xC0, 0x01, tpduSize,
         0xC2, 0x02, calledTsap / 256 % 256, calledTsap % 256,
         0xC1, 0x02, callingTsap / 256 % 256, callingTsap % 256]

/-- `_parse_cc_tpdu`: validates a Connection Confirm TPDU
(`COTPError` on failure, `()` on success). -/
def parseCcTpdu (pdu : List Nat) : Except String Unit :=
  if pdu.length < 7 then .error "CC TPDU trop court"
  else if pdu.getD 1 0 ≠ 0xD0 then .error "PDU COTP inattendu"
  else if pdu.length < pdu.getD 0 0 + 1 then .error "Longueur CC TPDU incoherente"
  else .ok ()

/-- `cotp_send_data(sock, user_data)`: the TPKT frame carrying the DT
TPDU `02 F0 80 <user_data>`. -/
def cotpSendData (userData : List Nat) : Except String (List Nat) :=
  sendTpkt ([0x02, 0xF0, 0x80] ++ userData)

/-- Result of `cotp_recv_data`, mirroring `TpktRecv`. -/
inductive CotpRecv where
  | eof : CotpRecv
  | err (msg : String) : CotpRecv
  | ok (userData : List Nat) (rest : List Nat) : CotpRecv
deriving DecidableEq, Repr

theorem recvExact_some {s : List Nat} {n : Nat} {pr : List Nat × List Nat}
    (h : recvExact s n = some pr) :
    pr.1 = s.take n ∧ pr.2 = s.drop n ∧ n ≤ s.length := by
  unfold recvExact at h
  split_ifs at h with hn
  cases h
  exact ⟨rfl, rfl, hn⟩

theorem recvTpkt_ok_length {s p r : List Nat} (h : recvTpkt s = .ok p r) :
    r.length < s.length := by
  unfold recvTpkt at h
  cases hex : recvExact s 4 with
  | none => rw [hex] at h; simp at h
  | some pr =>
    obtain ⟨header, rest⟩ := pr
    obtain ⟨h1, h2, h4⟩ := recvExact_some hex
    simp only at h1 h2
    rw [hex] at h
    dsimp only at h
    split_ifs at h with hv hres hlen hz
    · cases h
      subst h2
      simp only [List.length_drop]
      omega
    · cases hex2 : recvExact rest (header.getD 2 0 * 256 + header.getD 3 0 - 4) with
      | none => rw [hex2] at h; simp at h
      | some pr2 =>
        obtain ⟨payload, rest2⟩ := pr2
        obtain ⟨g1, g2, g4⟩ := recvExact_some hex2
        simp only at g1 g2
        rw [hex2] at h
        dsimp only at h
        split_ifs at h with hplen
        cases h
        subst g2 h2
        simp only [List.length_drop]
        omega

/-- `cotp_recv_data(sock)`: loops reading TPKT payloads; a DT TPDU
(`type == 0xF0`) returns `payload[3 : 1 + li]`, any other type is
skipped and the loop reads the next TPDU. -/
def cotpRecvData (stream : List Nat) : CotpRecv :=
  match h : recvTpkt stream with
  | .eof => .eof
  | .err m => .err m
  | .ok payload rest =>
    if payload.length < 3 then .err "TPDU trop court"
    else
      let li := payload.getD 0 0
      if payload.getD 1 0 = 0xF0 then
        if payload.length < li + 1 then .err "Longueur DT TPDU incoherente"
        else .ok ((payload.take (1 + li)).drop 3) rest
      else cotpRecvData rest
termination_by stream.length
decreasing_by exact recvTpkt_ok_length h

/-! ## ASN.1/BER MMS builder (asn1_codec.py) -/

/-- The `_PREFIX` constant `01 00 01 00` (session/presentation header)
prepended by the Get/Set builders. -/
def sessionHeader : List Nat := [0x01, 0x00, 0x01, 0x00]

/-- Python `bytes([tag]) + bytes([len(content)]) + content`, the TLV
pattern used throughout the builders; `bytes([n])` raises `ValueError`
when `n > 255`, modelled as `none`. -/
def tlv (tag : Nat) (content : List Nat) : Option (List Nat) :=
  if content.length ≤ 255 then some (tag :: content.length :: content) else none

/-- `_encode_ia5(s)`: `1a <len> <ascii bytes>`; the string is taken as
its list of ASCII byte values. -/
def encodeIa5 (s : List Nat) : Option (List Nat) := tlv 0x1A s

/-- `_encode_domain_specific_name`: two IA5Strings back to back. -/
def encodeDomainSpecificName (domainId itemId : List Nat) : Option (List Nat) := do
  pure ((← encodeIa5 domainId) ++ (← encodeIa5 itemId))

/-- `_next_invoke_id()`: returns the current module-level counter and
stores `(counter + 1) & 0xFFFF`.  State is passed explicitly. -/
def nextInvokeId (c : Nat) : Nat × Nat := (c, (c + 1) % 65536)

/-- `bytes([inv >> 8, inv & 0xFF])` preceded by `02 02`: the invoke-ID
TLV; `bytes` raises when `inv >> 8 > 255`. -/
def invokeBytes (inv : Nat) : Option (List Nat) :=
  if inv / 256 ≤ 255 then some [0x02, 0x02, inv / 256, inv % 256] else none

/-- `encode_mms_get_rcb(domain_id, item_id)`: confirmed-RequestPDU
[read].  The invoke-ID counter is threaded explicitly (second
component of the result). -/
def encodeMmsGetRcb (domainId itemId : List Nat) (c : Nat) :
    Option (List Nat × Nat) := do
  let namePart ← encodeDomainSpecificName domainId itemId
  let a1Inner ← tlv 0xA1 namePart
  let a01 ← tlv 0xA0 a1Inner
  let seq1 ← tlv 0x30 a01
  let a02 ← tlv 0xA0 seq1
  let a12 ← tlv 0xA1 a02
  let a4 ← tlv 0xA4 a12
  let inv := (nextInvokeId c).1
  let invokePart ← invokeBytes inv
  let a03 ← tlv 0xA0 (invokePart ++ a4)
  let a04 ← tlv 0xA0 a03
  let seq2 ← tlv 0x30 ([0x02, 0x01, 0x03] ++ a04)
  let app1 ← tlv 0x61 seq2
  pure (sessionHeader ++ app1, (nextInvokeId c).2)

/-- `encode_mms_set_rcb_attribute(domain_id, item_id, attribute, value)`:
confirmed-RequestPDU [write] for one RCB attribute.  `full_item` is
`item_id + "$" + attribute` when `attribute` is non-empty. -/
def encodeMmsSetRcbAttribute (domainId itemId attrName value : List Nat) (c : Nat) :
    Option (List Nat × Nat) := do
  let fullItem := if attrName.isEmpty then itemId else itemId ++ 0x24 :: attrName
  let namePart ← encodeDomainSpecificName domainId fullItem
  let a1Inner ← tlv 0xA1 namePart
  let a0NameInner ← tlv 0xA0 a1Inner
  let seqName ← tlv 0x30 a0NameInner
  let a0NameBlock ← tlv 0xA0 seqName
  let a0Val ← tlv 0xA0 value
  let a5 ← tlv 0xA5 (a0NameBlock ++ a0Val)
  let inv := (nextInvokeId c).1
  let invokePart ← invokeBytes inv
  let a03 ← tlv 0xA0 (invokePart ++ a5)
  let a04 ← tlv 0xA0 a03
  let seq2 ← tlv 0x30 ([0x02, 0x01, 0x03] ++ a04)
  let app1 ← tlv 0x61 seq2
  pure (sessionHeader ++ app1, (nextInvokeId c).2)

/-- One hex digit to its value (as in `bytes.fromhex`); the blob below
only uses lowercase digits. -/
def hexDigitVal (c : Char) : Nat :=
  if c = '0' then 0 else if c = '1' then 1 else if c = '2' then 2
  else if c = '3' then 3 else if c = '4' then 4 else if c = '5' then 5
  else if c = '6' then 6 else if c = '7' then 7 else if c = '8' then 8
  else if c = '9' then 9 else if c = 'a' then 10 else if c = 'b' then 11
  else if c = 'c' then 12 else if c = 'd' then 13 else if c = 'e' then 14
  else if c = 'f' then 15 else 0

/-- `bytes.fromhex`: consecutive pairs of hex digits to bytes. -/
def hexToBytes : List Char → List Nat
  | c1 :: c2 :: rest => (hexDigitVal c1 * 16 + hexDigitVal c2) :: hexToBytes rest
  | _ => []

/-- `encode_mms_initiate()`: the captured InitiateRequest blob, replayed
verbatim from the hex string in the source. -/
def encodeMmsInitiate : List Nat :=
  hexToBytes
    ("0db20506130100160102140200023302000134020001" ++
     "c19c318199a003800101a28191810400000001820400000001" ++
     "a423300f0201010604520100013004060251013010020103" ++
     "060528ca220201300406025101615e305c020101a0576055" ++
     "a107060528ca220203a20706052901876701a30302010c" ++
     "a606060429018767a70302010cbe2f282d020103a028a826" ++
     "800300fde881010582010583010aa416800101810305f100" ++
     "820c03ee1c00000408000079ef18").toList

/-! ## Invoke-ID counter as a process-level trace

`_invoke_id` is a module-level (process-global) variable: every session
shares it.  `reset_invoke_id(base)` stores `base`; `_next_invoke_id`
consumes the current value.  A process history is a list of operations
tagged with the session that performs them. -/

/-- One operation on the shared counter: a reset (performed by
`connect`) or a confirmed request built by session `sid`. -/
inductive InvokeOp where
  | reset (base : Nat) : InvokeOp
  | request (sid : Nat) : InvokeOp
deriving DecidableEq, Repr

/-- Runs a history of counter operations from counter value `c`; returns
the list of `(session, invoke-ID)` assignments and the final counter. -/
def runInvoke : List InvokeOp → Nat → List (Nat × Nat) × Nat
  | [], c => ([], c)
  | .reset b :: ops, _ => runInvoke ops b
  | .request sid :: ops, c =>
    let step := nextInvokeId c
    let tail := runInvoke ops step.2
    ((sid, step.1) :: tail.1, tail.2)

/-! ## Byte, hex and timestamp helpers for the BER decoder -/

/-- `int.from_bytes(l, "big")`: big-endian value of a byte list (also
models the `(acc << 8) | b` accumulation of `_ber_read_length`, which
agrees with it on byte values). -/
def beBytes (l : List Nat) : Nat := l.foldl (fun acc b => acc * 256 + b) 0

/-- One lowercase hex digit, as produced by `bytes.hex()`. -/
def hexDigitChar (n : Nat) : Char :=
  Char.ofNat (if n < 10 then 48 + n else 87 + n)

/-- Two lowercase hex digits of one byte. -/
def hexByte (b : Nat) : String :=
  String.mk [hexDigitChar (b / 16 % 16), hexDigitChar (b % 16)]

/-- `bytes.hex()` with no separator. -/
def hexOfBytes (l : List Nat) : String := String.join (l.map hexByte)

/-- Round `num / den` to the nearest integer, ties to even — the
rounding CPython's `round` applies to the (exactly representable)
microsecond value inside `datetime.fromtimestamp`. -/
def roundHalfEven (num den : Nat) : Nat :=
  let q := num / den
  let r := num % den
  if 2 * r < den then q
  else if den < 2 * r then q + 1
  else if q % 2 = 0 then q else q + 1

/-- Microseconds computed by `datetime.fromtimestamp` for a fractional
second of `k / 65536` (`k * 1e6 / 65536 = k * 15625 / 1024` is exact in
binary floating point, so only the final rounding matters). -/
def fracToMicro (k : Nat) : Nat := roundHalfEven (k * 15625) 1024

/-- Gregorian civil date from days since 1970-01-01 (the conversion
`datetime.fromtimestamp(..., tz=timezone.utc)` performs), as
`(year, month, day)`. -/
def civilFromDays (days : Nat) : Nat × Nat × Nat :=
  let z := days + 719468
  let era := z / 146097
  let doe := z % 146097
  let yoe := (doe - doe / 1460 + doe / 36524 - doe / 146096) / 365
  let y := yoe + era * 400
  let doy := doe - (365 * yoe + yoe / 4 - yoe / 100)
  let mp := (5 * doy + 2) / 153
  let d := doy - (153 * mp + 2) / 5 + 1
  let m := if mp < 10 then mp + 3 else mp - 9
  (if m ≤ 2 then y + 1 else y, m, d)

/-- Zero-padded two-digit decimal field. -/
def pad2 (n : Nat) : String := if n < 10 then "0" ++ toString n else toString n

/-- Zero-padded six-digit microsecond field. -/
def pad6 (n : Nat) : String :=
  let s := toString n
  String.mk (List.replicate (6 - s.length) '0') ++ s

/-- `datetime.fromtimestamp(t, tz=timezone.utc).isoformat()` for
`t = totalSec + micro/1e6` seconds since the UNIX epoch: the microsecond
field is printed only when non-zero, and UTC prints as `+00:00`. -/
def isoOfTimestamp (totalSec micro : Nat) : String :=
  let days := totalSec / 86400
  let rem := totalSec % 86400
  let c := civilFromDays days
  toString c.1 ++ "-" ++ pad2 c.2.1 ++ "-" ++ pad2 c.2.2 ++ "T" ++
    pad2 (rem / 3600) ++ ":" ++ pad2 (rem % 3600 / 60) ++ ":" ++ pad2 (rem % 60) ++
    (if micro = 0 then "" else "." ++ pad6 micro) ++ "+00:00"

/-- `_EPOCH_1984.timestamp()`: seconds from 1970-01-01 to 1984-01-01. -/
def epoch1984 : Nat := 441763200

/-- `_timestamp_to_iso(sec, frac)`: seconds at or above
`_SECS_UNIX_MIN = 1_000_000_000` use the UNIX epoch, below it the
1984-01-01 epoch; `fracK` is the 16-bit fraction numerator (the source
passes `fracK / 65536.0`). -/
def timestampIso (sec fracK : Nat) : String :=
  let base := if 1000000000 ≤ sec then 0 else epoch1984
  isoOfTimestamp (base + sec) (fracToMicro fracK)

/-! ## BER decoding primitives (asn1_codec.py) -/

/-- `_ber_read_length(data, offset)`: `(length, bytes consumed)`;
`(0, 0)` when out of range. -/
def berReadLength (data : List Nat) (offset : Nat) : Nat × Nat :=
  if data.length ≤ offset then (0, 0)
  else
    let b := data.getD offset 0
    if b < 0x80 then (b, 1)
    else
      let n := b &&& 0x7F
      if data.length < offset + 1 + n then (0, 0)
      else (beBytes ((data.drop (offset + 1)).take n), 1 + n)

/-- `_ber_skip(data, offset)`: offset just past the TLV at `offset`. -/
def berSkip (data : List Nat) (offset : Nat) : Nat :=
  if data.length ≤ offset then offset
  else
    let p := berReadLength data (offset + 1)
    offset + 1 + p.2 + p.1

/-- `str.decode("ascii", errors="replace")`: bytes ≥ 128 become the
replacement character. -/
def asciiReplace (bytes : List Nat) : String :=
  String.mk (bytes.map fun b => if b < 128 then Char.ofNat b else Char.ofNat 0xFFFD)

/-- `_ber_decode_visible_string` (tags 8a/1a/80, checked by the caller). -/
def berDecodeVisibleString (data : List Nat) (offset : Nat) : String × Nat :=
  if data.length ≤ offset then ("", offset)
  else
    let p := berReadLength data (offset + 1)
    let o2 := offset + 1 + p.2
    if data.length < o2 + p.1 then ("", o2)
    else (asciiReplace ((data.drop o2).take p.1), o2 + p.1)

/-- `_ber_decode_unsigned` (tags 85/86, checked by the caller). -/
def berDecodeUnsigned (data : List Nat) (offset : Nat) : Nat × Nat :=
  if data.length ≤ offset then (0, offset)
  else
    let p := berReadLength data (offset + 1)
    let o2 := offset + 1 + p.2
    if p.1 = 0 ∨ data.length < o2 + p.1 then (0, o2)
    else (beBytes ((data.drop o2).take p.1), o2 + p.1)

/-- `_ber_decode_boolean` (tag 83).  Note: when fewer than 3 bytes
remain the offset is returned unchanged. -/
def berDecodeBoolean (data : List Nat) (offset : Nat) : Bool × Nat :=
  if data.length < offset + 3 ∨ data.getD offset 0 ≠ 0x83 then (false, offset)
  else if data.getD (offset + 1) 0 ≠ 1 then (false, offset + 3)
  else (data.getD (offset + 2) 0 ≠ 0, offset + 3)

/-- `_ber_decode_octet_string` (tag 89). -/
def berDecodeOctetString (data : List Nat) (offset : Nat) : List Nat × Nat :=
  if data.length ≤ offset ∨ data.getD offset 0 ≠ 0x89 then ([], offset)
  else
    let p := berReadLength data (offset + 1)
    let o2 := offset + 1 + p.2
    if data.length < o2 + p.1 then ([], o2)
    else ((data.drop o2).take p.1, o2 + p.1)

/-- `_ber_decode_bit_string` (tag 84). -/
def berDecodeBitString (data : List Nat) (offset : Nat) : List Nat × Nat :=
  if data.length ≤ offset ∨ data.getD offset 0 ≠ 0x84 then ([], offset)
  else
    let p := berReadLength data (offset + 1)
    let o2 := offset + 1 + p.2
    if data.length < o2 + p.1 then ([], o2)
    else ((data.drop o2).take p.1, o2 + p.1)

/-- `_ber_decode_binary_time` (tag 8c): 4-6 octets, seconds plus an
optional 1/65536-second fraction; the result is the ISO string, the
placeholder, or the hex of the raw bytes. -/
def berDecodeBinaryTime (data : List Nat) (offset : Nat) : String × Nat :=
  if data.length ≤ offset ∨ data.getD offset 0 ≠ 0x8C then ("<binary-time?>", offset)
  else
    let p := berReadLength data (offset + 1)
    let o2 := offset + 1 + p.2
    if data.length < o2 + p.1 ∨ p.1 < 4 then ("<binary-time?>", o2 + p.1)
    else
      let raw := (data.drop o2).take p.1
      let sec := beBytes (raw.take 4)
      let fracK := if 6 ≤ p.1 then beBytes ((raw.drop 4).take 2) else 0
      if 0 < sec ∧ sec < 0x7FFFFFFF then (timestampIso sec fracK, o2 + p.1)
      else (hexOfBytes raw, o2 + p.1)

/-- `_ber_decode_utc_time` (tag 91): like binary-time but the fraction
is ignored and a short value falls straight to hex. -/
def berDecodeUtcTime (data : List Nat) (offset : Nat) : String × Nat :=
  if data.length ≤ offset ∨ data.getD offset 0 ≠ 0x91 then ("<utc-time?>", offset)
  else
    let p := berReadLength data (offset + 1)
    let o2 := offset + 1 + p.2
    if data.length < o2 + p.1 then ("<utc-time?>", o2 + p.1)
    else
      let raw := (data.drop o2).take p.1
      if 4 ≤ p.1 then
        let sec := beBytes (raw.take 4)
        if 0 < sec ∧ sec < 0x7FFFFFFF then (timestampIso sec 0, o2 + p.1)
        else (hexOfBytes raw, o2 + p.1)
      else (hexOfBytes raw, o2 + p.1)

/-- Decoded Python values: strings (visible strings, hex dumps, ISO
timestamps, sentinels), integers, booleans, floats (kept as their IEEE
payload bytes — no claim depends on the numeric value), nested
structures, and `None`. -/
inductive PyVal where
  | pstr (s : String) : PyVal
  | pint (n : Nat) : PyVal
  | pbool (b : Bool) : PyVal
  | pfloat (ieeeBytes : List Nat) : PyVal
  | plist (l : List PyVal) : PyVal
  | pnone : PyVal

/-- `_ber_decode_float` (tag 87): one format byte then 4 or 8 IEEE
octets; other payload sizes yield the payload hex, short TLVs `None`. -/
def berDecodeFloat (data : List Nat) (offset : Nat) : PyVal × Nat :=
  if data.length ≤ offset ∨ data.getD offset 0 ≠ 0x87 then (.pnone, offset)
  else
    let p := berReadLength data (offset + 1)
    let o2 := offset + 1 + p.2
    if data.length < o2 + p.1 ∨ p.1 < 5 then (.pnone, o2 + p.1)
    else
      let payload := (data.drop (o2 + 1)).take (p.1 - 1)
      if payload.length = 4 ∨ payload.length = 8 then (.pfloat payload, o2 + p.1)
      else (.pstr (hexOfBytes payload), o2 + p.1)

/-!
`_ber_decode_data_value` and `_ber_decode_structure` recurse into
structure contents, and the structure field loop (like the report-list
loop) can fail to advance its offset — `_ber_decode_boolean` on a
truncated `83` TLV returns the offset unchanged, looping forever.  The
loops are therefore modelled with explicit fuel: `none` means the fuel
ran out, and a result that is `none` for every fuel is a genuine
non-terminating Python execution.
-/

mutual

/-- `_ber_decode_data_value(data, offset)`: tag-dispatched decoding of
one MMS Data value. -/
def berDecodeDataValue : Nat → List Nat → Nat → Option (PyVal × Nat)
  | 0, _, _ => none
  | fuel + 1, data, offset =>
    if data.length ≤ offset then some (.pnone, offset)
    else
      let tag := data.getD offset 0
      if tag = 0x8A ∨ tag = 0x1A ∨ tag = 0x80 then
        let r := berDecodeVisibleString data offset
        some (.pstr r.1, r.2)
      else if tag = 0x84 then
        let r := berDecodeBitString data offset
        some (.pstr (hexOfBytes r.1), r.2)
      else if tag = 0x85 ∨ tag = 0x86 then
        let r := berDecodeUnsigned data offset
        some (.pint r.1, r.2)
      else if tag = 0x83 then
        let r := berDecodeBoolean data offset
        some (.pbool r.1, r.2)
      else if tag = 0x89 then
        let r := berDecodeOctetString data offset
        some (.pstr (hexOfBytes r.1), r.2)
      else if tag = 0x8C then
        let r := berDecodeBinaryTime data offset
        some (.pstr r.1, r.2)
      else if tag = 0x91 then
        let r := berDecodeUtcTime data offset
        some (.pstr r.1, r.2)
      else if tag = 0x87 then
        some (berDecodeFloat data offset)
      else if tag = 0xA2 ∨ tag &&& 0x1F = 0x20 then
        match berDecodeStructure fuel data offset with
        | none => none
        | some (fields, off) =>
          some (if fields.isEmpty then (.pstr "<structure>", off) else (.plist fields, off))
      else
        some (.pstr "<unknown>", berSkip data offset)

/-- `_ber_decode_structure` (tag a2, or the source's dead test
`tag & 0x1F == 0x20`, kept verbatim): decodes the contained fields. -/
def berDecodeStructure : Nat → List Nat → Nat → Option (List PyVal × Nat)
  | 0, _, _ => none
  | fuel + 1, data, offset =>
    if data.length ≤ offset then some ([], offset)
    else
      let tag := data.getD offset 0
      if tag ≠ 0xA2 ∧ tag &&& 0x1F ≠ 0x20 then some ([], offset)
      else
        let p := berReadLength data (offset + 1)
        let o2 := offset + 1 + p.2
        if data.length < o2 + p.1 then some ([], o2)
        else
          match structLoop fuel ((data.drop o2).take p.1) 0 [] with
          | none => none
          | some fields => some (fields, o2 + p.1)

/-- The `while pos < len(content)` field loop of
`_ber_decode_structure`. -/
def structLoop : Nat → List Nat → Nat → List PyVal → Option (List PyVal)
  | 0, _, _, _ => none
  | fuel + 1, content, pos, acc =>
    if content.length ≤ pos then some acc.reverse
    else
      match berDecodeDataValue fuel content pos with
      | none => none
      | some (v, pos2) => structLoop fuel content pos2 (v :: acc)

end

/-- One entry of `listOfAccessResult` as built by the decoder: the
recognized path produces `{"success": value}` dicts, the fallback a
single `{"raw_hex": ...}` dict. -/
inductive ReportEntry where
  | success (v : PyVal) : ReportEntry
  | rawHex (s : String) : ReportEntry

/-- `_decode_mms_report_list`: repeatedly applies the Data decoder (the
returned offset is unused by the caller and dropped). -/
def decodeReportListAux : Nat → List Nat → Nat → List ReportEntry → Option (List ReportEntry)
  | 0, _, _, _ => none
  | fuel + 1, data, offset, acc =>
    if data.length ≤ offset then some acc.reverse
    else
      match berDecodeDataValue fuel data offset with
      | none => none
      | some (v, off2) => decodeReportListAux fuel data off2 (.success v :: acc)

/-- The `MMSReport` dataclass: all fields default to `None`. -/
structure MMSReport where
  rcb_reference : Option String := none
  rpt_id : Option PyVal := none
  data_set_name : Option PyVal := none
  seq_num : Option PyVal := none
  time_of_entry : Option PyVal := none
  buf_ovfl : Option PyVal := none
  entries : Option (List ReportEntry) := none
  raw_pdu : Option (List Nat) := none

/-- The graceful-degradation report:
`MMSReport(entries=[{"raw_hex": pdu.hex()}])`. -/
def fallbackReport (pdu : List Nat) : MMSReport :=
  { entries := some [.rawHex (hexOfBytes pdu)] }

/-- `entries_list[k].get("success")` guarded by `len(entries_list) > k`. -/
def entryGet (l : List ReportEntry) (k : Nat) : Option PyVal :=
  match l.get? k with
  | some (.success v) => some v
  | _ => none

/-- `decode_mms_pdu(pdu)`: strips the optional session prefix, walks the
`61 / 30 / 02 01 03 / a0 / a3 / a0 / a1 / a0` informationReport
envelope, and decodes the access-result list; every structural mismatch
returns the raw-hex fallback report.  `none` models a non-terminating
run of the report-list loop (see above). -/
def decodeMmsPduFuel (fuel : Nat) (pdu : List Nat) : Option MMSReport :=
  let data0 := if pdu.take 4 = sessionHeader then pdu.drop 4 else pdu
  if data0.length < 4 ∨ data0.getD 0 0 ≠ 0x61 then some (fallbackReport pdu)
  else
    let p1 := berReadLength data0 1
    let off1 := 1 + p1.2
    let data1 := if data0.length < off1 + p1.1 then data0.drop off1
                 else (data0.drop off1).take p1.1
    if data1.length < 2 ∨ data1.getD 0 0 ≠ 0x30 then some (fallbackReport pdu)
    else
      let p2 := berReadLength data1 1
      let off2 := 1 + p2.2
      let off3 := if off2 + 3 ≤ data1.length ∧ data1.getD off2 0 = 0x02 then
                    berSkip data1 off2
                  else off2
      if data1.length ≤ off3 ∨ data1.getD off3 0 ≠ 0xA0 then some (fallbackReport pdu)
      else
        let p3 := berReadLength data1 (off3 + 1)
        let off4 := off3 + 1 + p3.2
        let a0Content := (data1.drop off4).take p3.1
        if a0Content.length < 2 ∨ a0Content.getD 0 0 ≠ 0xA3 then some (fallbackReport pdu)
        else
          let p4 := berReadLength a0Content 1
          let ir := (a0Content.drop (1 + p4.2)).take p4.1
          if ir.length < 5 ∨ ir.getD 0 0 ≠ 0xA0 then some (fallbackReport pdu)
          else
            let p5 := berReadLength ir 1
            let pos1 := 1 + p5.2
            let inner := if pos1 + p5.1 ≤ ir.length then (ir.drop pos1).take p5.1
                         else ir.drop pos1
            if inner.length < 2 ∨ inner.getD 0 0 ≠ 0xA1 then some (fallbackReport pdu)
            else
              let pos2 := berSkip inner 0
              if inner.length ≤ pos2 ∨ inner.getD pos2 0 ≠ 0xA0 then some (fallbackReport pdu)
              else
                let p6 := berReadLength inner (pos2 + 1)
                let pos3 := pos2 + 1 + p6.2
                let listData := if pos3 + p6.1 ≤ inner.length then (inner.drop pos3).take p6.1
                                else inner.drop pos3
                match decodeReportListAux fuel listData 0 [] with
                | none => none
                | some entriesList =>
                  if entriesList.isEmpty then some (fallbackReport pdu)
                  else
                    some { rcb_reference := none
                           rpt_id := entryGet entriesList 0
                           data_set_name := entryGet entriesList 4
                           seq_num := entryGet entriesList 2
                           time_of_entry := entryGet entriesList 3
                           buf_ovfl := entryGet entriesList 5
                           entries := some entriesList
                           raw_pdu := none }

/-! ## Reports client (mms_reports_client.py) -/

/-- `_is_information_report(report)`: `False` exactly when `entries` is
a single `{"raw_hex": ...}` dict. -/
def isInformationReport (r : MMSReport) : Bool :=
  match r.entries with
  | none => true
  | some [] => true
  | some [.rawHex _] => false
  | some [.success _] => true
  | some (_ :: _ :: _) => true

/-- `loop_reports(callback)`: the sequence of reports handed to the
callback when the peer delivers the given COTP user-data PDUs and then
closes.  Every decoded value is an `MMSReport`, so the
`isinstance(decoded, MMSReport)` guard always passes and the callback
runs on every PDU, with `raw_pdu` attached.  (`socket.timeout`
heartbeats and debug printing are not modelled; `none` propagates a
non-terminating decode.) -/
def loopReportsCalls (fuel : Nat) : List (List Nat) → Option (List MMSReport)
  | [] => some []
  | pdu :: rest =>
    match decodeMmsPduFuel fuel pdu with
    | none => none
    | some decoded =>
      match loopReportsCalls fuel rest with
      | none => none
      | some out => some ({ decoded with raw_pdu := some pdu } :: out)

/-- `_recv_until_response(report_callback)` with a callback installed:
PDUs passing `_is_information_report` are handed to the callback and the
loop continues; the first PDU failing the filter (a response) ends the
loop, as does EOF.  Returns the list of callback arguments. -/
def recvUntilResponse (fuel : Nat) : List (List Nat) → Option (List MMSReport)
  | [] => some []
  | pdu :: rest =>
    match decodeMmsPduFuel fuel pdu with
    | none => none
    | some decoded =>
      if isInformationReport decoded then
        match recvUntilResponse fuel rest with
        | none => none
        | some out => some ({ decoded with raw_pdu := some pdu } :: out)
      else some []

/-- The mutable state of `MMSReportsClient` relevant to `connect`,
together with the module-level invoke-ID counter. -/
structure ClientState where
  sock : Option Nat
  counter : Nat

/-- Outcome of `connect()`: `ok` returns normally, `failed` models a
raised `MMSConnectionError` (socket closed where the code closes it),
`raised` models any other uncaught exception.  Each carries the client
state afterwards and the TPKT frames sent. -/
inductive ConnectOutcome where
  | ok (c : ClientState) (sent : List (List Nat)) : ConnectOutcome
  | failed (msg : String) (c : ClientState) (sent : List (List Nat)) : ConnectOutcome
  | raised (msg : String) (c : ClientState) (sent : List (List Nat)) : ConnectOutcome

/-- `MMSReportsClient.connect()`: returns immediately when a socket
already exists; otherwise opens TCP (`tcpOk` says whether that
succeeds), runs the COTP CR/CC handshake, sends the MMS Initiate, waits
for its response and resets the invoke-ID counter.  `inbound` is the
byte stream the peer sends. -/
def connectClient (c : ClientState) (tcpOk : Bool) (inbound : List Nat) :
    ConnectOutcome :=
  if c.sock.isSome then .ok c []
  else if ¬ tcpOk then .failed "Echec connexion TCP" c []
  else
    let c1 : ClientState := { c with sock := some 0 }
    match buildCrTpdu 0x0001 0x0000 0x0A 0x0001 0x0001 with
    | .error m => .raised m c1 []
    | .ok cr =>
      match sendTpkt cr with
      | .error m => .failed m { c1 with sock := none } []
      | .ok crWire =>
        match recvTpkt inbound with
        | .eof => .failed "Connexion fermee lors de l attente du CC TPDU"
                    { c1 with sock := none } [crWire]
        | .err m => .failed m { c1 with sock := none } [crWire]
        | .ok payload rest =>
          match parseCcTpdu payload with
          | .error m => .failed m { c1 with sock := none } [crWire]
          | .ok _ =>
            match cotpSendData encodeMmsInitiate with
            | .error m => .raised m c1 [crWire]
            | .ok initWire =>
              match cotpRecvData rest with
              | .eof => .failed "Connexion fermee pendant le MMS InitiateResponse"
                          { c1 with sock := none } [crWire, initWire]
              | .err m => .raised m c1 [crWire, initWire]
              | .ok _ _ => .ok { c1 with counter := 0x012C } [crWire, initWire]

/-! ## Theorems -/

/-- C7: for every payload with `len ≤ 0xFFFB`, `send_tpkt` emits exactly
`03 00 ((len+4)>>8) ((len+4)&0xFF)` followed by the payload, `recv_tpkt`
on that byte stream returns the payload (with the stream fully
consumed), and `send_tpkt` fails with the overflow error exactly when
`len > 0xFFFB`. -/
theorem tpkt_send_recv_roundtrip (p : List Nat) :
    (p.length ≤ 0xFFFB →
      sendTpkt p = .ok ([0x03, 0x00, (4 + p.length) / 256, (4 + p.length) % 256] ++ p) ∧
      recvTpkt ([0x03, 0x00, (4 + p.length) / 256, (4 + p.length) % 256] ++ p) = .ok p []) ∧
    (0xFFFB < p.length → sendTpkt p = .error "TPKT trop long") := by
  refine ⟨fun hle => ⟨?_, ?_⟩, fun hgt => ?_⟩
  · unfold sendTpkt
    rw [if_neg (by omega)]
  · show recvTpkt (0x03 :: 0x00 :: (4 + p.length) / 256 :: (4 + p.length) % 256 :: p) = .ok p []
    unfold recvTpkt recvExact
    rw [if_pos (by simp)]
    simp only [List.take, List.drop, List.getD, List.get?, Option.getD_some]
    have hdec : (4 + p.length) / 256 * 256 + (4 + p.length) % 256 = 4 + p.length := by omega
    simp only [hdec]
    rw [if_neg (by omega), if_neg (by omega), if_neg (by omega)]
    have hread : 4 + p.length - 4 = p.length := by omega
    rw [hread]
    by_cases hz : p.length = 0
    · rw [if_pos hz]
      have : p = [] := List.length_eq_zero.mp hz
      subst this
      rfl
    · rw [if_neg hz, if_pos (le_refl _)]
      simp
  · unfold sendTpkt
    rw [if_pos (by omega)]

/-- Witness for C7 at the concrete payload `[0xAB, 0xCD]`. -/
theorem tpkt_send_recv_roundtrip_witness :
    ([0xAB, 0xCD] : List Nat).length ≤ 0xFFFB ∧
    sendTpkt [0xAB, 0xCD] = .ok [0x03, 0x00, 0x00, 0x06, 0xAB, 0xCD] ∧
    recvTpkt [0x03, 0x00, 0x00, 0x06, 0xAB, 0xCD] = .ok [0xAB, 0xCD] [] := by
  have h := (tpkt_send_recv_roundtrip [0xAB, 0xCD]).1 (by decide)
  exact ⟨by decide, h.1.trans (by rfl), h.2.trans (by rfl)⟩

/-- C2 counterexample: after the 4-byte header has started, a short read
is reported as EOF (`None`), not as a Truncated error — the stream
`03 00 00 06 AA` (header declaring a 2-byte payload, one byte delivered
before the close) yields EOF, and so does the one-byte header fragment
`03`. -/
theorem recv_tpkt_short_read_eof_cex :
    recvTpkt [0x03, 0x00, 0x00, 0x06, 0xAA] = .eof ∧
    recvTpkt [0x03, 0x00, 0x00, 0x06, 0xAA] ≠ .err "Payload TPKT tronque" ∧
    recvTpkt [0x03] = .eof := by
  refine ⟨by decide, by decide, by decide⟩

/-- C2 (amended): `recv_tpkt` returns EOF exactly when the stream ends
before the full 4-byte header, or when the header is valid
(version 3, reserved 0, declared length ≥ 4) but the stream ends before
the declared length — i.e. every short read, before or after the header
completes, is EOF, and the Truncated error branch is unreachable. -/
theorem recv_tpkt_eof_characterization (s : List Nat) :
    recvTpkt s = .eof ↔
      (s.length < 4 ∨
        (s.getD 0 0 = 0x03 ∧ s.getD 1 0 = 0x00 ∧ 4 ≤ declaredLen s ∧
         s.length < declaredLen s)) := by
  unfold recvTpkt recvExact declaredLen
  by_cases h4 : 4 ≤ s.length
  · rw [if_pos h4]
    dsimp only
    have g : ∀ i, i < 4 → (s.take 4).getD i 0 = s.getD i 0 := by
      intro i hi
      simp [List.getD, List.get?_take, hi]
    rw [g 0 (by omega), g 1 (by omega), g 2 (by omega), g 3 (by omega)]
    split_ifs with h1 h2 h3 h5 h6
    · simp only [reduceCtorEq, false_iff]
      omega
    · simp only [reduceCtorEq, false_iff]
      omega
    · simp only [reduceCtorEq, false_iff]
      omega
    · simp only [reduceCtorEq, false_iff]
      omega
    · dsimp only
      rw [if_neg (by rw [List.length_take_of_le h6]; simp)]
      simp only [reduceCtorEq, false_iff]
      simp only [List.length_drop] at h6
      omega
    · dsimp only
      simp only [List.length_drop] at h6
      simp only [eq_self_iff_true, true_iff]
      omega
  · rw [if_neg h4]
    simp only [eq_self_iff_true, true_iff]
    omega

/-- Witness for C2 at a concrete stream: a stream whose header declares
six bytes but ends after five is EOF, by the characterization. -/
theorem recv_tpkt_eof_characterization_witness :
    recvTpkt [0x03, 0x00, 0x00, 0x06, 0xAA] = .eof :=
  (recv_tpkt_eof_characterization [0x03, 0x00, 0x00, 0x06, 0xAA]).mpr (by decide)

/-- C8 counterexample: the default Connection Request TPDU has 18 bytes,
not 19 as the claim counts its own byte list. -/
theorem cr_tpdu_length_cex :
    (buildCrTpdu 0x0001 0x0000 0x0A 0x0001 0x0001).map List.length = .ok 18 ∧
    (18 : Nat) ≠ 19 := by
  refine ⟨by rfl, by decide⟩

/-- C8 (amended): with the default parameters (`src_ref=0x0001`,
`dst_ref=0x0000`, both TSAPs `0x0001`) and `tpdu_size=0x0A`, the COTP
Connection Request TPDU is exactly the 18-byte sequence
`11 e0 00 00 00 01 00 c0 01 0a c2 02 00 01 c1 02 00 01`. -/
theorem cr_tpdu_default_bytes :
    buildCrTpdu 0x0001 0x0000 0x0A 0x0001 0x0001 =
      .ok [0x11, 0xE0, 0x00, 0x00, 0x00, 0x01, 0x00, 0xC0, 0x01, 0x0A,
           0xC2, 0x02, 0x00, 0x01, 0xC1, 0x02, 0x00, 0x01] := by rfl

/-- C1: `cotp_send_data([0xAB])` puts the DT TPDU `02 F0 80 AB` on the
wire (inside its TPKT frame), but `cotp_recv_data` on that very stream
returns the EMPTY user data, not `[0xAB]`: the code slices
`payload[3 : 1 + li]` with `li = 2`, which is always empty, instead of
taking everything after the control octet. -/
theorem cotp_recv_after_send_empty :
    cotpSendData [0xAB] = .ok [0x03, 0x00, 0x00, 0x08, 0x02, 0xF0, 0x80, 0xAB] ∧
    cotpRecvData [0x03, 0x00, 0x00, 0x08, 0x02, 0xF0, 0x80, 0xAB] = .ok [] [] ∧
    ([] : List Nat) ≠ [0xAB] := by
  refine ⟨by rfl, ?_, by decide⟩
  have hcomp : recvTpkt [0x03, 0x00, 0x00, 0x08, 0x02, 0xF0, 0x80, 0xAB] =
      .ok [0x02, 0xF0, 0x80, 0xAB] [] := by decide
  rw [cotpRecvData]
  split
  next h => exact TpktRecv.noConfusion (hcomp.symm.trans h)
  next m h => exact TpktRecv.noConfusion (hcomp.symm.trans h)
  next payload rest h =>
    injection hcomp.symm.trans h with h1 h2
    subst h1
    subst h2
    decide

theorem runInvoke_replicate (s : Nat) :
    ∀ (k c : Nat), c < 65536 →
      (runInvoke (List.replicate k (InvokeOp.request s)) c).1 =
        (List.range k).map (fun j => (s, (c + j) % 65536)) := by
  intro k
  induction k with
  | zero => intro c hc; simp [runInvoke]
  | succ n ih =>
    intro c hc
    rw [List.replicate_succ]
    simp only [runInvoke, nextInvokeId]
    rw [ih ((c + 1) % 65536) (Nat.mod_lt _ (by norm_num))]
    rw [List.range_succ_eq_map]
    simp only [List.map_cons, List.map_map]
    refine congrArg₂ List.cons (by rw [Nat.add_zero, Nat.mod_eq_of_lt hc]) ?_
    refine List.map_congr_left fun j hj => ?_
    simp only [Function.comp_apply]
    rw [Nat.mod_add_mod]
    congr 2
    omega

/-- C5 (amended): after the process-wide counter is reset to a base
`B < 2^16`, a run of `k` consecutive requests — all of them, whichever
session issues them — receives invoke-IDs `(B + j) mod 2^16` for
`j = 0, …, k−1`, so the j-th request (1-indexed) carries
`(B + j − 1) mod 2^16`.  The counter is module-level, so this counts
requests of the whole process, not of one session. -/
theorem invoke_id_sequence_from_reset (B sid k c0 : Nat) (hB : B < 65536) :
    (runInvoke (InvokeOp.reset B :: List.replicate k (InvokeOp.request sid)) c0).1 =
      (List.range k).map (fun j => (sid, (B + j) % 65536)) := by
  simp only [runInvoke]
  exact runInvoke_replicate sid k B hB

/-- C5 counterexample: the invoke-ID counter is shared by the whole
process.  After session 1 resets it to the default base `0x012C`,
session 2 issues one request (which consumes `0x012C`); session 1's
first request then carries `0x012D`, not the `(B + 1 − 1) mod 2^16 =
0x012C` the per-session claim requires. -/
theorem invoke_id_cross_session_cex :
    (runInvoke [InvokeOp.reset 0x012C, InvokeOp.request 2, InvokeOp.request 1] 0).1 =
      [(2, 0x012C), (1, 0x012D)] ∧
    (0x012D : Nat) ≠ (0x012C + 1 - 1) % 65536 := by
  refine ⟨by decide, by decide⟩

/-- Witness for C5 at `B = 300`, two requests from session 7. -/
theorem invoke_id_sequence_from_reset_witness :
    (300 : Nat) < 65536 ∧
    (runInvoke (InvokeOp.reset 300 :: List.replicate 2 (InvokeOp.request 7)) 5).1 =
      (List.range 2).map (fun j => (7, (300 + j) % 65536)) :=
  ⟨by decide, invoke_id_sequence_from_reset 300 7 2 5 (by decide)⟩

theorem tlv_eq_some {tag : Nat} {c r : List Nat} (h : tlv tag c = some r) :
    r = tag :: c.length :: c := by
  unfold tlv at h
  split_ifs at h
  exact (Option.some.injEq .. ▸ h).symm

/-- C4 (amended): every GetRCBValues and every SetRCBValues PDU the
builder emits begins with the session/presentation prefix
`01 00 01 00`, then `61 <len> 30 <len> 02 01 03 a0 …` — but the
Initiate request is a verbatim captured blob whose first bytes are
`0d b2 05 06`, not the prefix. -/
theorem mms_builder_envelope :
    (∀ d i c pdu c2, encodeMmsGetRcb d i c = some (pdu, c2) →
      ∃ l1 l2 rest, pdu =
        [0x01, 0x00, 0x01, 0x00, 0x61, l1, 0x30, l2, 0x02, 0x01, 0x03, 0xA0] ++ rest) ∧
    (∀ d i a v c pdu c2, encodeMmsSetRcbAttribute d i a v c = some (pdu, c2) →
      ∃ l1 l2 rest, pdu =
        [0x01, 0x00, 0x01, 0x00, 0x61, l1, 0x30, l2, 0x02, 0x01, 0x03, 0xA0] ++ rest) ∧
    encodeMmsInitiate.take 4 = [0x0D, 0xB2, 0x05, 0x06] := by
  refine ⟨?_, ?_, by rfl⟩
  · intro d i c pdu c2 h
    simp only [encodeMmsGetRcb, bind, Option.bind_eq_some, Option.some.injEq,
      Prod.mk.injEq, pure] at h
    obtain ⟨np, hnp, a1i, ha1i, a01, ha01, s1, hs1, a02, ha02, a12, ha12, a4, ha4,
      ip, hip, a03, ha03, a04, ha04, s2, hs2, app1, happ1, hpdu, hc2⟩ := h
    have e04 := tlv_eq_some ha04
    have es2 := tlv_eq_some hs2
    have eapp := tlv_eq_some happ1
    subst e04 es2 eapp
    subst hpdu
    exact ⟨_, _, _, rfl⟩
  · intro d i a v c pdu c2 h
    simp only [encodeMmsSetRcbAttribute, bind, Option.bind_eq_some, Option.some.injEq,
      Prod.mk.injEq, pure] at h
    obtain ⟨np, hnp, a1i, ha1i, a0ni, ha0ni, sn, hsn, a0nb, ha0nb, a0v, ha0v, a5, ha5,
      ip, hip, a03, ha03, a04, ha04, s2, hs2, app1, happ1, hpdu, hc2⟩ := h
    have e04 := tlv_eq_some ha04
    have es2 := tlv_eq_some hs2
    have eapp := tlv_eq_some happ1
    subst e04 es2 eapp
    subst hpdu
    exact ⟨_, _, _, rfl⟩

/-- C4 counterexample: the Initiate request does not begin with the
session/presentation prefix `01 00 01 00`; its first four bytes are
`0d b2 05 06` (session CN SPDU of the captured exchange). -/
theorem mms_initiate_no_session_header_cex :
    encodeMmsInitiate.take 4 = [0x0D, 0xB2, 0x05, 0x06] ∧
    ([0x0D, 0xB2, 0x05, 0x06] : List Nat) ≠ sessionHeader := by
  refine ⟨by rfl, by decide⟩

/-- Witness for C4: the GetRCBValues PDU for domain `"A"`, item `"B"`,
counter 0, with its computed bytes and envelope decomposition. -/
theorem mms_builder_envelope_witness :
    encodeMmsGetRcb [0x41] [0x42] 0 =
      some ([0x01, 0x00, 0x01, 0x00, 0x61, 0x1F, 0x30, 0x1D, 0x02, 0x01, 0x03, 0xA0,
             0x18, 0xA0, 0x16, 0x02, 0x02, 0x00, 0x00, 0xA4, 0x10, 0xA1, 0x0E, 0xA0,
             0x0C, 0x30, 0x0A, 0xA0, 0x08, 0xA1, 0x06, 0x1A, 0x01, 0x41, 0x1A, 0x01,
             0x42], 1) ∧
    ∃ l1 l2 rest,
      ([0x01, 0x00, 0x01, 0x00, 0x61, 0x1F, 0x30, 0x1D, 0x02, 0x01, 0x03, 0xA0,
        0x18, 0xA0, 0x16, 0x02, 0x02, 0x00, 0x00, 0xA4, 0x10, 0xA1, 0x0E, 0xA0,
        0x0C, 0x30, 0x0A, 0xA0, 0x08, 0xA1, 0x06, 0x1A, 0x01, 0x41, 0x1A, 0x01,
        0x42] : List Nat) =
        [0x01, 0x00, 0x01, 0x00, 0x61, l1, 0x30, l2, 0x02, 0x01, 0x03, 0xA0] ++ rest :=
  ⟨by rfl, mms_builder_envelope.1 [0x41] [0x42] 0 _ 1 (by rfl)⟩

/-- C6 counterexample: a binary-time TLV shorter than 4 octets yields
the placeholder `"<binary-time?>"`, not the hex of the raw bytes; and
seconds `0x7FFFFFFF = 2^31 − 1 < 2^31` yield hex, not an ISO timestamp
(the code requires `sec < 0x7FFFFFFF` strictly). -/
theorem binary_time_fallback_cex :
    berDecodeBinaryTime [0x8C, 0x02, 0x00, 0x00] 0 = ("<binary-time?>", 4) ∧
    "<binary-time?>" ≠ hexOfBytes [0x00, 0x00] ∧
    berDecodeBinaryTime [0x8C, 0x04, 0x7F, 0xFF, 0xFF, 0xFF] 0 =
      (hexOfBytes [0x7F, 0xFF, 0xFF, 0xFF], 6) ∧
    hexOfBytes [0x7F, 0xFF, 0xFF, 0xFF] ≠ timestampIso 0x7FFFFFFF 0 := by
  refine ⟨by rfl, by decide, by rfl, by decide⟩

/-- C6 (amended): for a binary-time TLV `8c <len> <raw>` (short-form
length), a value shorter than 4 octets yields the placeholder
`"<binary-time?>"`; otherwise with seconds `s` from the first four
big-endian bytes, `0 < s < 2^31 − 1` yields the ISO timestamp (UNIX
epoch when `s ≥ 1e9`, 1984-01-01 epoch below, fraction from bytes 4..6
in 1/65536 s), and `s = 0` or `s ≥ 2^31 − 1` yields the hex of the raw
bytes.  The two reference byte strings decode to the stated 2018 and
2024 ISO timestamps. -/
theorem binary_time_decode_behavior (raw : List Nat) (hlen : raw.length ≤ 127) :
    (raw.length < 4 →
      berDecodeBinaryTime (0x8C :: raw.length :: raw) 0 = ("<binary-time?>", 2 + raw.length)) ∧
    (4 ≤ raw.length →
      (0 < beBytes (raw.take 4) ∧ beBytes (raw.take 4) < 0x7FFFFFFF →
        berDecodeBinaryTime (0x8C :: raw.length :: raw) 0 =
          (timestampIso (beBytes (raw.take 4))
            (if 6 ≤ raw.length then beBytes ((raw.drop 4).take 2) else 0),
           2 + raw.length)) ∧
      (beBytes (raw.take 4) = 0 ∨ 0x7FFFFFFF ≤ beBytes (raw.take 4) →
        berDecodeBinaryTime (0x8C :: raw.length :: raw) 0 =
          (hexOfBytes raw, 2 + raw.length))) ∧
    berDecodeBinaryTime [0x8C, 0x04, 0x5A, 0x9B, 0xE4, 0x00] 0 =
      ("2018-03-04T12:18:08+00:00", 6) ∧
    berDecodeBinaryTime [0x8C, 0x04, 0x65, 0xD1, 0x4D, 0x80] 0 =
      ("2024-02-18T00:21:20+00:00", 6) := by
  have hrl : berReadLength (0x8C :: raw.length :: raw) (0 + 1) = (raw.length, 1) := by
    unfold berReadLength
    rw [if_neg (by simp)]
    simp only [List.getD, List.get?, Option.getD_some]
    rw [if_pos (by omega)]
  refine ⟨fun hshort => ?_, fun hge => ⟨fun hsec => ?_, fun hfall => ?_⟩, by rfl, by rfl⟩
  · unfold berDecodeBinaryTime
    rw [hrl]
    simp only [List.length_cons, List.getD, List.get?, Option.getD_some,
      List.drop_succ_cons, List.drop_zero, List.take_length, Nat.reduceAdd]
    rw [if_neg (by norm_num), if_pos (by omega)]
  · unfold berDecodeBinaryTime
    rw [hrl]
    simp only [List.length_cons, List.getD, List.get?, Option.getD_some,
      List.drop_succ_cons, List.drop_zero, List.take_length, Nat.reduceAdd]
    rw [if_neg (by norm_num), if_neg (by omega)]
    rw [if_pos hsec]
  · unfold berDecodeBinaryTime
    rw [hrl]
    simp only [List.length_cons, List.getD, List.get?, Option.getD_some,
      List.drop_succ_cons, List.drop_zero, List.take_length, Nat.reduceAdd]
    rw [if_neg (by norm_num), if_neg (by omega)]
    rw [if_neg (by omega)]

/-- Witness for C6: the 1984-claimed reference bytes `5a 9b e4 00`
decode, through the theorem, to the 2018 ISO timestamp. -/
theorem binary_time_decode_behavior_witness :
    berDecodeBinaryTime [0x8C, 0x04, 0x5A, 0x9B, 0xE4, 0x00] 0 =
      ("2018-03-04T12:18:08+00:00", 6) :=
  ((((binary_time_decode_behavior [0x5A, 0x9B, 0xE4, 0x00] (by decide)).2.1)
      (by decide)).1 (by decide)).trans (by rfl)

theorem berDecodeDataValue_stuck_boolean (fuel : Nat) :
    berDecodeDataValue (fuel + 1) [0x83] 0 = some (.pbool false, 0) := rfl

theorem decodeReportListAux_stuck :
    ∀ (fuel : Nat) (acc : List ReportEntry),
      decodeReportListAux fuel [0x83] 0 acc = none := by
  intro fuel
  induction fuel with
  | zero => intro acc; rfl
  | succ n ih =>
    intro acc
    cases n with
    | zero => rfl
    | succ m =>
      have hb := berDecodeDataValue_stuck_boolean m
      simp only [decodeReportListAux, hb]
      exact ih _

/-- C9: `decode_mms_pdu` is NOT total.  On the 15-byte PDU whose
recognized informationReport envelope carries the access-result list
`[0x83]` (a boolean tag with no length or value byte),
`_ber_decode_boolean` returns without advancing the offset and the
report-list loop runs forever: the model returns `none` (fuel
exhausted) for EVERY fuel bound, i.e. the Python loop never
terminates. -/
theorem decode_mms_pdu_divergence (fuel : Nat) :
    decodeMmsPduFuel fuel
      [0x61, 0x0D, 0x30, 0x0B, 0xA0, 0x09, 0xA3, 0x07, 0xA0, 0x05, 0xA1, 0x00,
       0xA0, 0x01, 0x83] = none := by
  change (match decodeReportListAux fuel [0x83] 0 [] with
    | none => none
    | some entriesList =>
      if entriesList.isEmpty then
        some (fallbackReport
          [0x61, 0x0D, 0x30, 0x0B, 0xA0, 0x09, 0xA3, 0x07, 0xA0, 0x05, 0xA1, 0x00,
           0xA0, 0x01, 0x83])
      else
        some { rcb_reference := none
               rpt_id := entryGet entriesList 0
               data_set_name := entryGet entriesList 4
               seq_num := entryGet entriesList 2
               time_of_entry := entryGet entriesList 3
               buf_ovfl := entryGet entriesList 5
               entries := some entriesList
               raw_pdu := none }) = none
  rw [decodeReportListAux_stuck fuel []]

/-- C3 counterexample: in `loop_reports` a PDU that decodes to the
raw-hex fallback DOES trigger the callback — the one-byte PDU `00`
produces one callback invocation carrying the fallback report, which
fails `_is_information_report`. -/
theorem loop_reports_raw_hex_callback_cex :
    loopReportsCalls 5 [[0x00]] =
      some [{ entries := some [.rawHex "00"], raw_pdu := some [0x00] }] ∧
    loopReportsCalls 5 [[0x00]] ≠ some [] ∧
    isInformationReport { entries := some [.rawHex "00"], raw_pdu := some [0x00] } = false := by
  have h2 : loopReportsCalls 5 [[0x00]] =
      some [{ entries := some [.rawHex "00"], raw_pdu := some [0x00] }] := by rfl
  refine ⟨h2, fun h => absurd (h2.symm.trans h) (by simp), by rfl⟩

/-- C3 (amended): `loop_reports` invokes the callback once for every
received PDU whose decode terminates — raw-hex fallbacks included —
attaching `raw_pdu`; the recognized-envelope filter
(`_is_information_report`) is applied only in `_recv_until_response`,
whose callback invocations all pass the filter. -/
theorem loop_reports_callback_behavior (fuel : Nat) :
    (∀ pdus out, loopReportsCalls fuel pdus = some out →
      out.length = pdus.length ∧
      ∀ k, k < pdus.length →
        ∃ d, decodeMmsPduFuel fuel (pdus.getD k []) = some d ∧
          out.get? k = some { d with raw_pdu := some (pdus.getD k []) }) ∧
    (∀ pdus calls, recvUntilResponse fuel pdus = some calls →
      ∀ r ∈ calls, isInformationReport r = true) := by
  constructor
  · intro pdus
    induction pdus with
    | nil =>
      intro out h
      simp only [loopReportsCalls, Option.some.injEq] at h
      subst h
      exact ⟨rfl, fun k hk => absurd hk (by simp)⟩
    | cons pdu rest ih =>
      intro out h
      simp only [loopReportsCalls] at h
      cases hd : decodeMmsPduFuel fuel pdu with
      | none => rw [hd] at h; simp at h
      | some decoded =>
        rw [hd] at h
        cases hr : loopReportsCalls fuel rest with
        | none => rw [hr] at h; simp at h
        | some tailOut =>
          rw [hr] at h
          simp only [Option.some.injEq] at h
          subst h
          obtain ⟨ihlen, ihget⟩ := ih tailOut hr
          refine ⟨by simp [ihlen], ?_⟩
          intro k hk
          cases k with
          | zero => exact ⟨decoded, by simpa using hd, by simp⟩
          | succ j =>
            have hj : j < rest.length := by simpa using hk
            obtain ⟨d, hd2, hout⟩ := ihget j hj
            exact ⟨d, by simpa using hd2, by simpa using hout⟩
  · intro pdus
    induction pdus with
    | nil =>
      intro calls h r hr
      simp only [recvUntilResponse, Option.some.injEq] at h
      subst h
      simp at hr
    | cons pdu rest ih =>
      intro calls h r hr
      simp only [recvUntilResponse] at h
      cases hd : decodeMmsPduFuel fuel pdu with
      | none => rw [hd] at h; simp at h
      | some decoded =>
        rw [hd] at h
        dsimp only at h
        by_cases hir : isInformationReport decoded = true
        · rw [if_pos hir] at h
          cases hrest : recvUntilResponse fuel rest with
          | none => rw [hrest] at h; simp at h
          | some out2 =>
            rw [hrest] at h
            simp only [Option.some.injEq] at h
            subst h
            rcases List.mem_cons.mp hr with hr | hr
            · rw [hr]
              exact hir
            · exact ih out2 hrest r hr
        · rw [if_neg hir] at h
          simp only [Option.some.injEq] at h
          subst h
          simp at hr

/-- Witness for C3: one raw-hex fallback PDU produces exactly one
callback invocation with `raw_pdu` attached. -/
theorem loop_reports_callback_behavior_witness :
    loopReportsCalls 6 [[0x00]] =
      some [{ entries := some [.rawHex "00"], raw_pdu := some [0x00] }] ∧
    ∃ d, decodeMmsPduFuel 6 [0x00] = some d ∧
      ([{ entries := some [.rawHex "00"], raw_pdu := some [0x00] }] :
          List MMSReport).get? 0 = some { d with raw_pdu := some [0x00] } := by
  have hcall : loopReportsCalls 6 [[0x00]] =
      some [{ entries := some [.rawHex "00"], raw_pdu := some [0x00] }] := by rfl
  refine ⟨hcall, ?_⟩
  have h := ((loop_reports_callback_behavior 6).1 [[0x00]] _ hcall).2 0 (by decide)
  simpa using h

/-- C10: calling `connect()` while the socket already exists returns
immediately and changes nothing — same client state (socket and
invoke-ID counter untouched), no TPKT frame sent, no handshake or
Initiate attempted. -/
theorem connect_noop_when_connected (c : ClientState) (s : Nat) (tcpOk : Bool)
    (inbound : List Nat) (h : c.sock = some s) :
    connectClient c tcpOk inbound = .ok c [] := by
  unfold connectClient
  rw [if_pos (by simp [h])]

/-- Witness for C10 on a concrete already-connected client. -/
theorem connect_noop_when_connected_witness :
    (⟨some 3, 777⟩ : ClientState).sock = some 3 ∧
    connectClient ⟨some 3, 777⟩ true [] = .ok ⟨some 3, 777⟩ [] :=
  ⟨rfl, connect_noop_when_connected ⟨some 3, 777⟩ 3 true [] rfl⟩

end Po
